import Mathlib

/-!
Verification of the `whitelist` plugin (`src/plugins/whitelist/kv.go`) of the
Proxy repository: a consistency-aware in-process cache of an access-control
state (an enabled flag plus a member sequence) mirrored from an external
key-value store.

The embedding keeps the Go source's names and control flow.  Stored payloads
are modelled as a small JSON-value type; the typed accessors
`hosting.GetKeyFromKV` / `hosting.SetKeyToKV` live outside the repository
snapshot and are modelled from the spec (§4.3).  The `sync.RWMutex` used by
the apply loop and the mutators is modelled explicitly where a claim is
about locking: an `Unlock` of an unlocked mutex is a fatal runtime error in
Go, modelled as `none` / a panic outcome.
-/

namespace Whitelist

/-- A stored payload: the JSON value under a key.  `jbool` and `jstrs` are
the two well-formed shapes this plugin ever writes; `malformed` stands for
any byte sequence that fails to decode as the requested type. -/
inductive JVal where
  | jbool (b : Bool)
  | jstrs (l : List String)
  | malformed
  deriving DecidableEq, Repr

/-- A key's state in the store: never set, or set to a payload. -/
inductive KVal where
  | absent
  | present (v : JVal)
  deriving DecidableEq, Repr

/-- The two keys of the cache's namespaced bucket (spec §6). -/
structure Store where
  enabled : KVal
  whitelisted : KVal
  deriving DecidableEq, Repr

/-- Outcome of a typed get: the not-found signal is distinguishable from
every other failure (spec §4.3). -/
inductive GetResult (α : Type) where
  | notFound
  | found (v : α)
  | storeError
  deriving DecidableEq, Repr

/-- `json.Unmarshal` of a payload into a `bool` target: succeeds exactly on
a boolean payload. -/
def decodeBool : JVal → Option Bool
  | JVal.jbool b => some b
  | _ => none

/-- `json.Unmarshal` of a payload into a `[]string` target: succeeds exactly
on a string-sequence payload. -/
def decodeStrs : JVal → Option (List String)
  | JVal.jstrs l => some l
  | _ => none

/-- Modelled from the spec: `hosting.GetKeyFromKV` for a boolean target is
not in the source snapshot (`internal/hosting`); per §4.3 it reads the raw
value, translates "key not found" into the distinguishable absence signal,
decodes JSON into the target on success, and reports any other read or
decode failure as a `StoreError` without touching the target. -/
def getKeyBool : KVal → GetResult Bool
  | KVal.absent => GetResult.notFound
  | KVal.present v =>
    match decodeBool v with
    | some b => GetResult.found b
    | none => GetResult.storeError

/-- Modelled from the spec: `hosting.GetKeyFromKV` for a `[]string` target,
same contract as `getKeyBool` (spec §4.3). -/
def getKeyStrs : KVal → GetResult (List String)
  | KVal.absent => GetResult.notFound
  | KVal.present v =>
    match decodeStrs v with
    | some l => GetResult.found l
    | none => GetResult.storeError

/-- The error a failed store interaction surfaces to the caller
(spec §7, `StoreError`). -/
inductive StoreErr where
  | storeError
  deriving DecidableEq, Repr

/-- The in-memory fields of the `Whitelist` struct guarded by its
`sync.RWMutex`: `Enabled bool` and `Whitelisted []string`. -/
structure WL where
  Enabled : Bool
  Whitelisted : List String
  deriving DecidableEq, Repr

/-- The initial state set by `NewKVWhitelist`:
`Enabled: false, Whitelisted: make([]string, 0)`. -/
def initWL : WL := { Enabled := false, Whitelisted := [] }

/-- `IsEnabled`: shared lock, returns the current `Enabled` field. -/
def IsEnabled (w : WL) : Bool := w.Enabled

/-- `Contains`: shared lock, `slices.Contains(w.Whitelisted, uuid)`. -/
def Contains (w : WL) (uuid : String) : Bool := w.Whitelisted.contains uuid

/-- `Reload`, control flow exactly as in the source, returning the final
in-memory state together with the error result (the Go method mutates the
receiver in place, so a failing reload still leaves its partial writes):
fetch `"enabled"`; if the unwrapped error is `ErrKeyNotFound`, set
`Enabled = false` and fall through to the `"whitelisted"` fetch; otherwise
`return err` — note this returns `nil` (success) when the fetch succeeded,
skipping the `"whitelisted"` fetch entirely.  The `"whitelisted"` fetch has
the `else if err != nil` guard the first fetch lacks. -/
def Reload (w : WL) (st : Store) : WL × Option StoreErr :=
  match getKeyBool st.enabled with
  | GetResult.notFound =>
    let w := { w with Enabled := false }
    match getKeyStrs st.whitelisted with
    | GetResult.notFound => ({ w with Whitelisted := [] }, none)
    | GetResult.found l => ({ w with Whitelisted := l }, none)
    | GetResult.storeError => (w, some StoreErr.storeError)
  | GetResult.found b => ({ w with Enabled := b }, none)
  | GetResult.storeError => (w, some StoreErr.storeError)

/-- `Enable`: exclusive lock, `Enabled = true`, unlock, then `saveEnabled`
(which persists the current field and returns the persist outcome without
touching memory).  Returns the final state and the error result. -/
def Enable (w : WL) (persist : Option StoreErr) : WL × Option StoreErr :=
  let w := { w with Enabled := true }
  (w, persist)

/-- `Disable`: exclusive lock, `Enabled = false`, unlock, then
`saveEnabled`. -/
def Disable (w : WL) (persist : Option StoreErr) : WL × Option StoreErr :=
  let w := { w with Enabled := false }
  (w, persist)

/-- `Add`: exclusive lock, `append(w.Whitelisted, uuid)`, unlock, then
`saveWhitelisted`. -/
def Add (w : WL) (uuid : String) (persist : Option StoreErr) :
    WL × Option StoreErr :=
  let w := { w with Whitelisted := w.Whitelisted ++ [uuid] }
  (w, persist)

/-- `Remove`: exclusive lock,
`slices.DeleteFunc(w.Whitelisted, fun s => s == uuid)` — which deletes every
element satisfying the predicate — unlock, then `saveWhitelisted`. -/
def Remove (w : WL) (uuid : String) (persist : Option StoreErr) :
    WL × Option StoreErr :=
  let w := { w with Whitelisted := w.Whitelisted.filter (fun s => s ≠ uuid) }
  (w, persist)

/-- A sequence of `Add` calls (persist outcomes do not affect the in-memory
state), folded left to right. -/
def addAll (w : WL) (ids : List String) : WL :=
  ids.foldl (fun w id => (Add w id none).1) w

/-! ### The change apply loop, with explicit mutex accounting

The goroutine spawned by `NewKVWhitelist` drains the watch channel.  Its
`sync.RWMutex` is modelled by its write-hold depth; `Unlock` of an unlocked
`RWMutex` is a fatal runtime error in Go ("sync: Unlock of unlocked
RWMutex"), which terminates the whole process — modelled as `none`. -/

/-- A change event delivered by the watch stream: key plus raw payload.
The channel can also deliver `nil`, modelled as `Option ChangeEvent`. -/
structure ChangeEvent where
  Key : String
  Value : JVal
  deriving DecidableEq, Repr

/-- `w.m.Unlock()`: decrement the write-hold depth; at depth 0 this is the
fatal "Unlock of unlocked RWMutex" runtime error (`none`). -/
def mUnlock (l : Nat) : Option Nat := if l = 0 then none else some (l - 1)

/-- One iteration of the apply loop's `for key := range watcher.Changes()`
body, threading the mutex depth: `nil` events are skipped; an `"enabled"`
or `"whitelisted"` event takes the exclusive lock and decodes the payload
into the corresponding field.  On decode failure the source unlocks inside
the `if` body, logs, and then falls through to the unconditional final
`Unlock` — a second unlock.  `none` is the fatal runtime error. -/
def applyEvent (l : Nat) (w : WL) (ev : Option ChangeEvent) :
    Option (Nat × WL) :=
  match ev with
  | none => some (l, w)
  | some ev =>
    if ev.Key = "enabled" then
      let l := l + 1
      match decodeBool ev.Value with
      | some b =>
        match mUnlock l with
        | none => none
        | some l => some (l, { w with Enabled := b })
      | none =>
        match mUnlock l with
        | none => none
        | some l =>
          match mUnlock l with
          | none => none
          | some l => some (l, w)
    else if ev.Key = "whitelisted" then
      let l := l + 1
      match decodeStrs ev.Value with
      | some vs =>
        match mUnlock l with
        | none => none
        | some l => some (l, { w with Whitelisted := vs })
      | none =>
        match mUnlock l with
        | none => none
        | some l =>
          match mUnlock l with
          | none => none
          | some l => some (l, w)
    else some (l, w)

/-- The apply loop over a finite schedule of delivered events.  A fatal
runtime error in the goroutine crashes the process, so no later event is
processed (`none`). -/
def applyLoopAux : Nat → WL → List (Option ChangeEvent) → Option (Nat × WL)
  | l, w, [] => some (l, w)
  | l, w, ev :: evs =>
    match applyEvent l w ev with
    | none => none
    | some (l', w') => applyLoopAux l' w' evs

/-- Final cache state after the apply loop consumes the given events,
starting with the mutex free; `none` means the process crashed. -/
def applyLoop (w : WL) (evs : List (Option ChangeEvent)) : Option WL :=
  (applyLoopAux 0 w evs).map Prod.snd

/-! ### Lock-operation traces

For the claims about the locking discipline, each straight-line code path is
embedded as the sequence of its observable operations: mutex acquire and
release, the in-memory field write, and the network `SetKeyToKV` call. -/

/-- An observable operation of a code path. -/
inductive Op where
  | lock
  | unlock
  | memWrite
  | netSet
  deriving DecidableEq, Repr, BEq

/-- The operations of the apply loop's handler for an `"enabled"` or
`"whitelisted"` event (both have identical structure), as a function of
whether the payload decodes: `Lock`; on success the field write and the
final `Unlock`; on failure the `Unlock` inside the `if` body followed by
the unconditional final `Unlock`. -/
def handlerOps (decodeOk : Bool) : List Op :=
  if decodeOk then [Op.lock, Op.memWrite, Op.unlock]
  else [Op.lock, Op.unlock, Op.unlock]

/-- `saveEnabled`: `Lock`, deferred `Unlock`, `SetKeyToKV` under the lock. -/
def saveEnabledOps : List Op := [Op.lock, Op.netSet, Op.unlock]

/-- `saveWhitelisted`: same shape as `saveEnabled`. -/
def saveWhitelistedOps : List Op := [Op.lock, Op.netSet, Op.unlock]

/-- `Enable`: `Lock`, field write, `Unlock`, then the `saveEnabled` call. -/
def enableOps : List Op := [Op.lock, Op.memWrite, Op.unlock] ++ saveEnabledOps

/-- `Disable`: same shape as `Enable`. -/
def disableOps : List Op := [Op.lock, Op.memWrite, Op.unlock] ++ saveEnabledOps

/-- `Add`: `Lock`, append, `Unlock`, then the `saveWhitelisted` call. -/
def addOps : List Op := [Op.lock, Op.memWrite, Op.unlock] ++ saveWhitelistedOps

/-- `Remove`: `Lock`, delete, `Unlock`, then the `saveWhitelisted` call. -/
def removeOps : List Op := [Op.lock, Op.memWrite, Op.unlock] ++ saveWhitelistedOps

/-- Run a trace against the mutex from the given hold depth, returning the
final depth; `none` is the fatal unlock-of-unlocked error. -/
def runLocks : List Op → Nat → Option Nat
  | [], l => some l
  | Op.lock :: t, l => runLocks t (l + 1)
  | Op.unlock :: t, l =>
    match mUnlock l with
    | none => none
    | some l' => runLocks t l'
  | Op.memWrite :: t, l => runLocks t l
  | Op.netSet :: t, l => runLocks t l

/-- The hold depth at which each operation of a trace is issued (paired with
the operation), starting from the given depth. -/
def depthAt : List Op → Nat → List (Op × Nat)
  | [], _ => []
  | Op.lock :: t, l => (Op.lock, l) :: depthAt t (l + 1)
  | Op.unlock :: t, l => (Op.unlock, l) :: depthAt t (l - 1)
  | Op.memWrite :: t, l => (Op.memWrite, l) :: depthAt t l
  | Op.netSet :: t, l => (Op.netSet, l) :: depthAt t l

/-- True iff every network set call of the trace is issued with the mutex
not held (depth 0 at the call). -/
def netsUnlocked (t : List Op) : Bool :=
  (depthAt t 0).all (fun p => p.1 != Op.netSet || p.2 == 0)

/-- True iff every network set call of the trace is issued while the mutex
is held. -/
def netsLocked (t : List Op) : Bool :=
  (depthAt t 0).all (fun p => p.1 != Op.netSet || decide (0 < p.2))

/-- True iff every in-memory field write of the trace happens while the
mutex is held. -/
def memWritesLocked (t : List Op) : Bool :=
  (depthAt t 0).all (fun p => p.1 != Op.memWrite || decide (0 < p.2))

/-- True iff some prefix of the trace already containing the memory write
but not yet the network call ends with the mutex fully released: the
mutator's own critical section closes before the persist call begins. -/
def releasedBeforeNet (t : List Op) : Bool :=
  (List.range (t.length + 1)).any (fun n =>
    (t.take n).contains Op.memWrite && !((t.take n).contains Op.netSet) &&
      (runLocks (t.take n) 0 == some 0))

/-! ### Heap model for `AllWhitelisted`

`AllWhitelisted` is about slice aliasing, so the relevant slices are
modelled as indices of their backing arrays in a small heap; every slice
this code creates covers its whole backing array from offset 0. -/

/-- A heap of string arrays. -/
structure Heap where
  arrs : List (List String)
  deriving Repr

/-- Allocate a fresh backing array holding the given contents (what
`make([]string, 0)` followed by a growing `append` does): returns the new
heap and the new slice's array index. -/
def alloc (h : Heap) (contents : List String) : Heap × Nat :=
  (⟨h.arrs ++ [contents]⟩, h.arrs.length)

/-- Read a slice's elements from the heap. -/
def readArr (h : Heap) (r : Nat) : List String := (h.arrs[r]?).getD []

/-- Mutate a slice's backing array in place (models a caller overwriting
elements of a returned slice). -/
def writeArr (h : Heap) (r : Nat) (v : List String) : Heap :=
  ⟨h.arrs.set r v⟩

/-- `AllWhitelisted`: shared lock; `copy := make([]string, 0)` then
`copy = append(copy, w.Whitelisted...)` — appending to a zero-capacity
slice allocates a fresh backing array and copies the members into it; the
fresh slice is returned. -/
def AllWhitelisted (h : Heap) (membersRef : Nat) : Heap × Nat :=
  alloc h (readArr h membersRef)

/-! ### Helper lemmas -/

/-- The typed boolean get reports absence exactly when the key is absent. -/
theorem getKeyBool_notFound_iff (k : KVal) :
    getKeyBool k = GetResult.notFound ↔ k = KVal.absent := by
  cases k with
  | absent => simp [getKeyBool]
  | present v => cases v <;> simp [getKeyBool, decodeBool]

/-- A run of `Add` calls appends the added ids, in order, to the members. -/
theorem addAll_whitelisted (w : WL) (ids : List String) :
    (addAll w ids).Whitelisted = w.Whitelisted ++ ids := by
  induction ids generalizing w with
  | nil => simp [addAll]
  | cons id ids ih =>
    have h1 : addAll w (id :: ids) =
        addAll { w with Whitelisted := w.Whitelisted ++ [id] } ids := rfl
    rw [h1, ih]
    simp

/-! ### Claim theorems -/

/-- C1: the claim says a successful `Reload` refreshes both keys, fetching
`"whitelisted"` regardless of the outcome of the `"enabled"` fetch.  The
code contradicts this: when the `"enabled"` fetch succeeds, the `else`
branch `return err` returns the nil error — `Reload` reports success
having never fetched `"whitelisted"` (here the stored sequence decodes to
`["alice"]` yet members stays empty). -/
theorem reload_skips_whitelisted_on_enabled_success :
    (Reload initWL
        ⟨KVal.present (JVal.jbool true),
         KVal.present (JVal.jstrs ["alice"])⟩).2 = none ∧
    getKeyStrs (KVal.present (JVal.jstrs ["alice"])) =
      GetResult.found ["alice"] ∧
    (Reload initWL
        ⟨KVal.present (JVal.jbool true),
         KVal.present (JVal.jstrs ["alice"])⟩).1.Whitelisted = [] :=
  ⟨rfl, rfl, rfl⟩

/-- C2: the claim says a `"whitelisted"` event with an undecodable payload
leaves members unchanged, does not crash the process, and the loop still
applies a subsequent well-formed event.  The code double-unlocks the
`RWMutex` on the decode-failure path, a fatal runtime error that crashes
the process: the loop returns no final state and the following well-formed
event (which, delivered alone, is applied fine) is lost. -/
theorem malformed_event_crashes_apply_loop :
    applyLoop initWL
      [some ⟨"whitelisted", JVal.malformed⟩,
       some ⟨"whitelisted", JVal.jstrs ["alice"]⟩] = none ∧
    applyLoop initWL [some ⟨"whitelisted", JVal.jstrs ["alice"]⟩] =
      some { Enabled := false, Whitelisted := ["alice"] } :=
  ⟨rfl, rfl⟩

/-- C3: the claim says every path of the event handler releases the lock
exactly once.  On the decode-failure path the handler performs one `Lock`
and two `Unlock`s — the second being the fatal unlock-of-unlocked error —
while the success path is balanced. -/
theorem decode_failure_double_unlock :
    (handlerOps false).count Op.unlock = 2 ∧
    runLocks (handlerOps false) 0 = none ∧
    runLocks (handlerOps true) 0 = some 0 := by decide

/-- C4 counterexample: the claim says no mutator holds the exclusive lock
while the network persist call is issued.  In all four mutators the persist
helper (`saveEnabled` / `saveWhitelisted`) re-acquires the lock and issues
`SetKeyToKV` while holding it. -/
theorem net_call_issued_under_lock :
    netsUnlocked enableOps = false ∧ netsUnlocked disableOps = false ∧
    netsUnlocked addOps = false ∧ netsUnlocked removeOps = false := by decide

/-- C4 amended: each mutator writes its field under the lock, fully
releases the lock before the persist call begins, and the persist helper
then re-acquires the lock and holds it for the duration of the network set
call. -/
theorem mutators_release_then_persist_under_helper_lock :
    (memWritesLocked enableOps ∧ releasedBeforeNet enableOps ∧
      netsLocked enableOps ∧ runLocks enableOps 0 = some 0) ∧
    (memWritesLocked disableOps ∧ releasedBeforeNet disableOps ∧
      netsLocked disableOps ∧ runLocks disableOps 0 = some 0) ∧
    (memWritesLocked addOps ∧ releasedBeforeNet addOps ∧
      netsLocked addOps ∧ runLocks addOps 0 = some 0) ∧
    (memWritesLocked removeOps ∧ releasedBeforeNet removeOps ∧
      netsLocked removeOps ∧ runLocks removeOps 0 = some 0) := by decide

/-- C5 counterexample: the claim says a `Reload` that returns a
`StoreError` leaves the observable state unchanged.  With the cache enabled,
an absent `"enabled"` key and an undecodable `"whitelisted"` value, `Reload`
returns a `StoreError` but has already reset the enabled flag to false. -/
theorem reload_error_changes_state :
    (Reload { Enabled := true, Whitelisted := [] }
        ⟨KVal.absent, KVal.present JVal.malformed⟩).2 =
      some StoreErr.storeError ∧
    (Reload { Enabled := true, Whitelisted := [] }
        ⟨KVal.absent, KVal.present JVal.malformed⟩).1 ≠
      { Enabled := true, Whitelisted := [] } := by decide

/-- C5 amended: a `Reload` returning a `StoreError` always leaves members
unchanged, and leaves the enabled flag unchanged unless the `"enabled"` key
was absent — in which case the flag has already been reset to false before
the failing `"whitelisted"` fetch. -/
theorem reload_error_preserves_members (w : WL) (st : Store) (e : StoreErr)
    (h : (Reload w st).2 = some e) :
    (Reload w st).1.Whitelisted = w.Whitelisted ∧
    ((Reload w st).1.Enabled = w.Enabled ∨
      (st.enabled = KVal.absent ∧ (Reload w st).1.Enabled = false)) := by
  rcases hb : getKeyBool st.enabled with _ | b | _
  · have hab : st.enabled = KVal.absent := (getKeyBool_notFound_iff _).mp hb
    rcases hw : getKeyStrs st.whitelisted with _ | vs | _
    · simp [Reload, hb, hw] at h
    · simp [Reload, hb, hw] at h
    · refine ⟨by simp [Reload, hb, hw], Or.inr ⟨hab, by simp [Reload, hb, hw]⟩⟩
  · simp [Reload, hb] at h
  · exact ⟨by simp [Reload, hb], Or.inl (by simp [Reload, hb])⟩

/-- C5 witness: an undecodable `"enabled"` value makes `Reload` fail with a
`StoreError` while the whole state is untouched. -/
theorem reload_error_preserves_members_witness :
    (Reload initWL ⟨KVal.present JVal.malformed, KVal.absent⟩).1.Whitelisted =
      initWL.Whitelisted ∧
    ((Reload initWL ⟨KVal.present JVal.malformed, KVal.absent⟩).1.Enabled =
        initWL.Enabled ∨
      ((⟨KVal.present JVal.malformed, KVal.absent⟩ : Store).enabled =
          KVal.absent ∧
        (Reload initWL ⟨KVal.present JVal.malformed, KVal.absent⟩).1.Enabled =
          false)) :=
  reload_error_preserves_members initWL
    ⟨KVal.present JVal.malformed, KVal.absent⟩ StoreErr.storeError rfl

/-- C6 counterexample: the claim says an absent `"enabled"` key makes
`Reload` return success.  With `"enabled"` absent but `"whitelisted"`
undecodable, `Reload` returns a `StoreError`. -/
theorem reload_enabled_absent_can_fail :
    (Reload initWL ⟨KVal.absent, KVal.present JVal.malformed⟩).2 ≠ none := by
  decide

/-- C6 amended: when the `"enabled"` key is absent, `Reload` leaves
`IsEnabled()` false in every case, and returns success provided the
`"whitelisted"` fetch does not itself fail with a `StoreError`. -/
theorem reload_enabled_absent (w : WL) (st : Store)
    (h : st.enabled = KVal.absent) :
    IsEnabled (Reload w st).1 = false ∧
    (getKeyStrs st.whitelisted ≠ GetResult.storeError →
      (Reload w st).2 = none) := by
  rcases hw : getKeyStrs st.whitelisted with _ | vs | _ <;>
    simp [Reload, IsEnabled, getKeyBool, h, hw]

/-- C6 witness: on the empty store, `Reload` succeeds and the flag is
false. -/
theorem reload_enabled_absent_witness :
    IsEnabled (Reload initWL ⟨KVal.absent, KVal.absent⟩).1 = false ∧
    (getKeyStrs (⟨KVal.absent, KVal.absent⟩ : Store).whitelisted ≠
        GetResult.storeError →
      (Reload initWL ⟨KVal.absent, KVal.absent⟩).2 = none) :=
  reload_enabled_absent initWL ⟨KVal.absent, KVal.absent⟩ rfl

/-- C7: `Remove(id)` deletes every occurrence of `id` from the members
(count drops to zero, not just by one), so `Contains(id)` immediately
afterwards is false, for every prior state and persist outcome. -/
theorem remove_deletes_all_occurrences (w : WL) (uuid : String)
    (p : Option StoreErr) :
    Contains (Remove w uuid p).1 uuid = false ∧
    (Remove w uuid p).1.Whitelisted.count uuid = 0 := by
  constructor
  · simp [Contains, Remove]
  · simp [Remove, List.count_eq_zero, List.mem_filter]

/-- C8: after any run of `Add` calls with no intervening `Remove`,
`Contains` is true for every added id, and counts add up exactly — repeated
`Add` of one id appends duplicate entries and no added entry is lost. -/
theorem adds_never_lost (w : WL) (ids : List String) :
    (∀ id, id ∈ ids → Contains (addAll w ids) id = true) ∧
    (∀ id, (addAll w ids).Whitelisted.count id =
      w.Whitelisted.count id + ids.count id) := by
  constructor
  · intro id hid
    simp [Contains, addAll_whitelisted, hid]
  · intro id
    simp [addAll_whitelisted, List.count_append]

/-- C8 witness: adding `"a"` twice to the fresh cache leaves it contained,
with both duplicate entries present. -/
theorem adds_never_lost_witness :
    Contains (addAll initWL ["a", "a"]) "a" = true ∧
    (addAll initWL ["a", "a"]).Whitelisted.count "a" =
      initWL.Whitelisted.count "a" + (["a", "a"] : List String).count "a" :=
  ⟨(adds_never_lost initWL ["a", "a"]).1 "a" (by simp),
    (adds_never_lost initWL ["a", "a"]).2 "a"⟩

/-- C9: `AllWhitelisted` returns a slice backed by a freshly allocated
array holding a copy of the members: it never aliases the members' backing
array, and overwriting the returned slice in place leaves the members —
and hence every subsequent `Contains` answer — unchanged. -/
theorem allWhitelisted_defensive_copy (h : Heap) (membersRef : Nat)
    (hv : membersRef < h.arrs.length) :
    (AllWhitelisted h membersRef).2 ≠ membersRef ∧
    readArr (AllWhitelisted h membersRef).1 (AllWhitelisted h membersRef).2 =
      readArr h membersRef ∧
    (∀ v, readArr
        (writeArr (AllWhitelisted h membersRef).1
          (AllWhitelisted h membersRef).2 v) membersRef =
      readArr h membersRef) ∧
    (∀ v id, (readArr
        (writeArr (AllWhitelisted h membersRef).1
          (AllWhitelisted h membersRef).2 v) membersRef).contains id =
      (readArr h membersRef).contains id) := by
  have hfresh : (AllWhitelisted h membersRef).2 = h.arrs.length := rfl
  have hwrite : ∀ v, readArr
      (writeArr (AllWhitelisted h membersRef).1
        (AllWhitelisted h membersRef).2 v) membersRef =
      readArr h membersRef := by
    intro v
    show (((h.arrs ++ [readArr h membersRef]).set h.arrs.length v)[membersRef]?).getD [] = _
    rw [List.getElem?_set_ne (by omega)]
    rw [List.getElem?_append_left hv]
    rfl
  refine ⟨by rw [hfresh]; omega, ?_, hwrite, fun v id => by rw [hwrite v]⟩
  show ((h.arrs ++ [readArr h membersRef])[h.arrs.length]?).getD [] = _
  rw [List.getElem?_concat_length]
  rfl

/-- C9 witness: on a one-array heap the returned slice is fresh and
overwriting it does not disturb the members. -/
theorem allWhitelisted_defensive_copy_witness :
    (AllWhitelisted ⟨[["alice"]]⟩ 0).2 ≠ 0 ∧
    readArr (AllWhitelisted ⟨[["alice"]]⟩ 0).1
        (AllWhitelisted ⟨[["alice"]]⟩ 0).2 =
      readArr ⟨[["alice"]]⟩ 0 ∧
    (∀ v, readArr
        (writeArr (AllWhitelisted ⟨[["alice"]]⟩ 0).1
          (AllWhitelisted ⟨[["alice"]]⟩ 0).2 v) 0 =
      readArr ⟨[["alice"]]⟩ 0) ∧
    (∀ v id, (readArr
        (writeArr (AllWhitelisted ⟨[["alice"]]⟩ 0).1
          (AllWhitelisted ⟨[["alice"]]⟩ 0).2 v) 0).contains id =
      (readArr ⟨[["alice"]]⟩ 0).contains id) :=
  allWhitelisted_defensive_copy ⟨[["alice"]]⟩ 0 (by decide)

/-- C10: `Enable` (resp. `Disable`) commits the new flag in memory before
the persist is attempted, so whatever the persist outcome — success or
`StoreError` — `IsEnabled` on the resulting state reads the new value. -/
theorem enable_commits_before_persist (w : WL) (persist : Option StoreErr) :
    IsEnabled (Enable w persist).1 = true ∧
    IsEnabled (Disable w persist).1 = false :=
  ⟨rfl, rfl⟩

end Whitelist
